import Mathlib

/-!
Verification of the MCPX tool-adapter layer of `dylibso/github-insights`
(`src/mastra/tools/mcpx.ts`): the translation of a remote tool catalog into a
registry of locally invocable operations with a uniform `CallResult` shape and
per-call error containment.

The embedding models the JavaScript semantics of `getMcpxTools` and of each
constructed tool's `execute` closure.  Exceptions are modelled with
`Except String`: an `Except.error` value is an exception propagating out of the
modelled code, and catching is an explicit `match`.  JavaScript's distinction
between `undefined` and `null` matters for the adapter's output (error results
hard-code `null`, the success path passes optional fields through unchanged),
so optional string fields of *returned* objects live in a three-valued type
`JSStr`; optional fields of *remote* objects are `Option` (`none` = the field
is absent / `undefined`).
-/

namespace Mcpx

/-- A JavaScript string-or-nothing value as it appears in an adapter result:
`undefined` (field absent), `null` (explicit null), or an actual string. -/
inductive JSStr where
  | undef
  | null
  | str (s : String)
deriving DecidableEq, Repr

/-- One content item of a remote `MCPXCallResult`
(`{ type: 'text'|'image'|'resource'; data?: string; mimeType?: string; text: string }`).
`data`/`mimeType` are optional (`none` = absent/`undefined`).  The `extra`
field models additional runtime fields a structurally-typed remote object may
carry beyond the four declared in the TypeScript interface. -/
structure RemoteContentItem where
  type : String
  data : Option String
  mimeType : Option String
  text : String
  extra : List (String × String)
deriving DecidableEq, Repr

/-- The remote response shape `MCPXCallResult`
(`{ content?: Array<...>; isError?: boolean }`). -/
structure MCPXCallResult where
  content : Option (List RemoteContentItem)
  isError : Option Bool
deriving DecidableEq, Repr

/-- A content item of the CallResult returned by the adapter: exactly the four
fields `type`, `text`, `data`, `mimeType` built by `execute`. -/
structure ContentItem where
  type : String
  text : String
  data : JSStr
  mimeType : JSStr
deriving DecidableEq, Repr

/-- The uniform result shape every operation returns
(`{ content: [...], isError }`); `isError` is passed through and may be
absent (`none` = `undefined`). -/
structure CallResult where
  content : List ContentItem
  isError : Option Bool
deriving DecidableEq, Repr

/-- Outcome of `await session.handleCallTool(...)`: the promise either rejects
(`thrown`, carrying the string interpolation of the thrown error, as produced
by a JS template literal) or resolves, possibly to `null`/`undefined`
(modelled by `Option`). -/
inductive CallToolOutcome where
  | thrown (err : String)
  | resolved (response : Option MCPXCallResult)
deriving DecidableEq, Repr

/-- Embedding of a JS `string | undefined` value into `JSStr`:
an absent field is the value `undefined`, never `null`. -/
def optToJS : Option String → JSStr
  | none => JSStr.undef
  | some s => JSStr.str s

/-- String rendering of the TypeError JavaScript throws when a property is
read off `undefined` (the message text is representative; no claim depends on
its exact wording, only on it differing from the fixed no-response text). -/
def typeErrorReadingIsError : String :=
  "TypeError: Cannot read properties of undefined (reading isError)"

/-- The property access `response.isError` performed by the
`console.log('called tool', ..., !response.isError)` statement of `execute`:
reading `.isError` off a nullish response throws a TypeError. -/
def readIsError : Option MCPXCallResult → Except String (Option Bool)
  | none => Except.error typeErrorReadingIsError
  | some r => Except.ok r.isError

/-- The per-item mapping of the success path:
`item => ({ type: item.type, text: item.text, data: item.data, mimeType: item.mimeType })`. -/
def projectItem (item : RemoteContentItem) : ContentItem :=
  { type := item.type
  , text := item.text
  , data := optToJS item.data
  , mimeType := optToJS item.mimeType }

/-- The literal CallResult returned by the `if (!response)` branch of
`execute`. -/
def noResponseCallResult : CallResult :=
  { content := [ { type := "text"
                 , text := "No response received from tool"
                 , data := JSStr.null
                 , mimeType := JSStr.null } ]
  , isError := some true }

/-- The literal CallResult built by the `catch (error)` clause of `execute`:
`` `An error occurred while executing ${mcpxTool.name}: ${error}.` ``. -/
def caughtCallResult (toolName err : String) : CallResult :=
  { content := [ { type := "text"
                 , text := "An error occurred while executing " ++ toolName
                             ++ ": " ++ err ++ "."
                 , data := JSStr.null
                 , mimeType := JSStr.null } ]
  , isError := some true }

/-- The `try { ... }` block of `execute`, in source order:
1. `await session.handleCallTool(...)` (rethrows a rejection);
2. the `console.log` statement, whose argument `!response.isError` reads a
   property off the response and therefore throws on a nullish response;
3. `if (!response) { return /- no-response result -/ }` — reachable only for a
   nullish response, which step 2 has already thrown on;
4. the success mapping `response.content?.map(item => ...) ?? []` with
   `isError: response.isError` passed through. -/
def tryBlock (outcome : CallToolOutcome) : Except String CallResult :=
  match outcome with
  | CallToolOutcome.thrown err => Except.error err
  | CallToolOutcome.resolved response =>
    match readIsError response with
    | Except.error e => Except.error e
    | Except.ok _success =>
      match response with
      | none => Except.ok noResponseCallResult
      | some r =>
        Except.ok
          { content := (r.content.getD []).map projectItem
          , isError := r.isError }

/-- The `execute` closure of a constructed tool: the try block wrapped in the
`catch (error)` clause.  An `Except.error` result would be an exception
escaping `execute`; the catch clause converts every exception of the try block
into an ordinary CallResult. -/
def execute (toolName : String) (outcome : CallToolOutcome) : Except String CallResult :=
  match tryBlock outcome with
  | Except.ok result => Except.ok result
  | Except.error err => Except.ok (caughtCallResult toolName err)

/-- One invocation of a constructed operation against a remote call-tool
endpoint modelled as a pure function of tool name and arguments. -/
def invoke {α : Type} (callTool : String → α → CallToolOutcome)
    (toolName : String) (context : α) : Except String CallResult :=
  execute toolName (callTool toolName context)

/-- Modelled from the spec: the input-schema description documents delivered
by the remote catalog.  The repository imports its schema translator from the
external package `@dylibso/json-schema-to-zod-openai`, whose source is not in
this repository; §4.2/§9 of the spec describe the schema algebra it must
cover (primitives, nested objects, arrays, enums, optional/required, nullable)
and a catch-all for any unrecognized feature. -/
inductive JsonSchema where
  | str
  | num
  | boolean
  | obj (props : List (String × JsonSchema)) (required : List String)
  | arr (elem : JsonSchema)
  | enumOf (values : List String)
  | nullable (inner : JsonSchema)
  | unrecognized (feature : String)
deriving Repr

/-- Modelled from the spec: the translated validator shapes (zod schemas)
produced by the external translator, with a permissive leaf `any` as the
fallback for unrecognized schema features. -/
inductive ZodType where
  | string
  | number
  | boolean
  | object (props : List (String × ZodType)) (required : List String)
  | array (elem : ZodType)
  | enumOf (values : List String)
  | nullable (inner : ZodType)
  | any
deriving Repr

mutual

/-- Modelled from the spec: `convertToZodSchema`, the schema translator of the
external package `@dylibso/json-schema-to-zod-openai` (not part of this
repository).  Per §4.2/§9 it is a total, pure transform: every recognized
construct maps structurally, and any unrecognized feature degrades to the
permissive `any` leaf instead of failing. -/
def convertToZodSchema : JsonSchema → ZodType
  | JsonSchema.str => ZodType.string
  | JsonSchema.num => ZodType.number
  | JsonSchema.boolean => ZodType.boolean
  | JsonSchema.obj props required => ZodType.object (convertProps props) required
  | JsonSchema.arr elem => ZodType.array (convertToZodSchema elem)
  | JsonSchema.enumOf values => ZodType.enumOf values
  | JsonSchema.nullable inner => ZodType.nullable (convertToZodSchema inner)
  | JsonSchema.unrecognized _ => ZodType.any

/-- Translation of an object schema's property list, one property at a time. -/
def convertProps : List (String × JsonSchema) → List (String × ZodType)
  | [] => []
  | (name, s) :: rest => (name, convertToZodSchema s) :: convertProps rest

end

/-- A tool descriptor delivered by the remote catalog (`interface MCPXTool`):
`name`, optional `description`, and an input schema document. -/
structure MCPXTool where
  name : String
  description : Option String
  inputSchema : JsonSchema

/-- JS `x || ''` on an optional string: a falsy value (absent/`undefined`, or
the empty string) picks the fallback `''`. -/
def jsOrEmpty : Option String → String
  | none => ""
  | some d => if d = "" then "" else d

/-- The fixed output contract declared for every tool
(`outputSchema: CallToolResult` — the zod object with `content` and
`isError`). -/
def CallToolResultSchema : ZodType :=
  ZodType.object
    [ ("content", ZodType.array (ZodType.object
        [ ("data", ZodType.nullable ZodType.string)
        , ("mimeType", ZodType.nullable ZodType.string)
        , ("text", ZodType.nullable ZodType.string)
        , ("type", ZodType.enumOf ["text", "image", "resource"]) ]
        ["data", "mimeType", "text", "type"]))
    , ("isError", ZodType.nullable ZodType.boolean) ]
    ["content", "isError"]

/-- The data of one constructed operation, as assembled by the `createTool`
call inside `getMcpxTools`.  The `execute` closure of the operation is the
function `execute` above applied to this tool's `id` (the closure captures
`mcpxTool.name` and the session handle). -/
structure Tool where
  id : String
  description : String
  inputSchema : ZodType
  outputSchema : ZodType

/-- The `createTool({...})` call of `getMcpxTools`:
`id: mcpxTool.name`, `description: mcpxTool.description || ''`,
`inputSchema: convertToZodSchema(mcpxTool.inputSchema)`,
`outputSchema: CallToolResult`. -/
def createTool (mcpxTool : MCPXTool) : Tool :=
  { id := mcpxTool.name
  , description := jsOrEmpty mcpxTool.description
  , inputSchema := convertToZodSchema mcpxTool.inputSchema
  , outputSchema := CallToolResultSchema }

/-- The registry returned by `getMcpxTools`: a JS object keyed by tool id,
modelled as an insertion-ordered association list with unique keys. -/
abbrev Registry := List (String × Tool)

/-- JS object update `({ ...acc, [tool.id]: tool })`: overwrite the value of
an existing key in place, or append a new key at the end. -/
def objInsert (key : String) (v : Tool) : Registry → Registry
  | [] => [(key, v)]
  | (k, w) :: rest =>
    if k = key then (k, v) :: rest else (k, w) :: objInsert key v rest

/-- JS property lookup `registry[key]` (`none` = `undefined`). -/
def lookupReg (reg : Registry) (key : String) : Option Tool :=
  match reg with
  | [] => none
  | (k, v) :: rest => if k = key then some v else lookupReg rest key

/-- The keys of a registry, in insertion order. -/
def regKeys (reg : Registry) : List String :=
  reg.map Prod.fst

/-- The aggregation of `getMcpxTools`:
`tools.map(createTool-wrapping)` followed by
`tools.reduce((acc, tool) => ({ ...acc, [tool.id]: tool }), {})`. -/
def buildRegistry (mcpxTools : List MCPXTool) : Registry :=
  (mcpxTools.map createTool).foldl (fun acc tool => objInsert tool.id tool acc) []

/-- `getMcpxTools(session)`, as a function of the outcome of the one
`session.handleListTools` request: on a rejection the surrounding
`catch (error) { console.error(...); throw error; }` rethrows the same error;
on success the tool list is mapped and reduced into the registry
(`Except.error` = the error propagating to the caller). -/
def getMcpxTools (listToolsOutcome : Except String (List MCPXTool)) :
    Except String Registry :=
  match listToolsOutcome with
  | Except.error err => Except.error err
  | Except.ok mcpxTools => Except.ok (buildRegistry mcpxTools)

/-- The last descriptor of the catalog bearing a given name, if any: the
specification-side notion of "the later descriptor wins". -/
def lastMatching (n : String) : List MCPXTool → Option MCPXTool
  | [] => none
  | t :: ts =>
    match lastMatching n ts with
    | some u => some u
    | none => if t.name = n then some t else none

/-! ## Theorems -/

/-- Helper: looking a key up after a JS object update finds the inserted value
for that key and is unchanged elsewhere. -/
theorem lookupReg_objInsert (key : String) (v : Tool) (reg : Registry) (n : String) :
    lookupReg (objInsert key v reg) n
      = if key = n then some v else lookupReg reg n := by
  induction reg with
  | nil => simp [objInsert, lookupReg]
  | cons hd tl ih =>
    obtain ⟨k, w⟩ := hd
    by_cases hk : k = key
    · subst hk
      by_cases hn : k = n <;> simp [objInsert, lookupReg, hn]
    · have hk2 : ¬key = k := fun hh => hk hh.symm
      by_cases hn : key = n
      · subst hn
        simp [objInsert, lookupReg, hk, hk2, ih]
      · have hnk : ¬n = key := fun hh => hn hh.symm
        by_cases hkn : k = n <;>
          simp [objInsert, lookupReg, hk, hk2, hkn, hn, hnk, ih]

/-- Helper: the keys after a JS object update are the inserted key together
with the previous keys. -/
theorem mem_regKeys_objInsert (key : String) (v : Tool) (reg : Registry) (n : String) :
    n ∈ regKeys (objInsert key v reg) ↔ n = key ∨ n ∈ regKeys reg := by
  induction reg with
  | nil => simp [objInsert, regKeys]
  | cons hd tl ih =>
    obtain ⟨k, w⟩ := hd
    by_cases hk : k = key
    · subst hk
      simp [objInsert, regKeys, List.mem_cons]
    · simp [objInsert, regKeys, hk, List.mem_cons] at ih ⊢
      tauto

/-- Helper: a JS object update keeps the keys duplicate-free. -/
theorem nodup_regKeys_objInsert (key : String) (v : Tool) (reg : Registry)
    (h : (regKeys reg).Nodup) : (regKeys (objInsert key v reg)).Nodup := by
  induction reg with
  | nil => simp [objInsert, regKeys]
  | cons hd tl ih =>
    obtain ⟨k, w⟩ := hd
    have h' : k ∉ List.map Prod.fst tl ∧ (List.map Prod.fst tl).Nodup := by
      simpa only [regKeys, List.map_cons, List.nodup_cons] using h
    obtain ⟨hk1, hk2⟩ := h'
    by_cases hk : k = key
    · subst hk
      have heq : objInsert k v ((k, w) :: tl) = (k, v) :: tl := by
        simp [objInsert]
      rw [heq]
      show (List.map Prod.fst ((k, v) :: tl)).Nodup
      rw [List.map_cons, List.nodup_cons]
      exact ⟨hk1, hk2⟩
    · have heq : objInsert key v ((k, w) :: tl) = (k, w) :: objInsert key v tl := by
        simp [objInsert, hk]
      rw [heq]
      show (List.map Prod.fst ((k, w) :: objInsert key v tl)).Nodup
      rw [List.map_cons, List.nodup_cons]
      refine ⟨?_, ih hk2⟩
      intro hmem
      rcases (mem_regKeys_objInsert key v tl k).1 hmem with h1 | h2
      · exact hk h1
      · exact hk1 h2

/-- Helper: a lookup succeeds exactly on the registry's keys. -/
theorem lookupReg_isSome_iff (reg : Registry) (n : String) :
    (lookupReg reg n).isSome = true ↔ n ∈ regKeys reg := by
  induction reg with
  | nil => simp [lookupReg, regKeys]
  | cons hd tl ih =>
    obtain ⟨k, v⟩ := hd
    show (if k = n then some v else lookupReg tl n).isSome = true
       ↔ n ∈ List.map Prod.fst ((k, v) :: tl)
    rw [List.map_cons, List.mem_cons]
    by_cases hk : k = n
    · simp [hk]
    · have hnk : ¬n = k := fun hh => hk hh.symm
      rw [if_neg hk, ih]
      constructor
      · intro hh
        exact Or.inr hh
      · rintro (h1 | h2)
        · exact absurd h1 hnk
        · exact h2

/-- Helper: the map-then-reduce of `getMcpxTools` is a fold of JS object
updates over the descriptor list. -/
theorem buildRegistry_eq_foldl (l : List MCPXTool) :
    buildRegistry l
      = l.foldl (fun acc t => objInsert (createTool t).id (createTool t) acc) [] := by
  unfold buildRegistry
  rw [List.foldl_map]

/-- Helper: looking up a name in the fold of object updates finds the
operation built from the last descriptor with that name, and falls back to
the accumulator otherwise. -/
theorem lookupReg_foldl (l : List MCPXTool) (acc : Registry) (n : String) :
    lookupReg (l.foldl (fun acc t => objInsert (createTool t).id (createTool t) acc) acc) n
      = match lastMatching n l with
        | some t => some (createTool t)
        | none => lookupReg acc n := by
  induction l generalizing acc with
  | nil => simp [lastMatching]
  | cons t ts ih =>
    rw [List.foldl_cons, ih]
    cases h : lastMatching n ts with
    | some u => simp [lastMatching, h]
    | none =>
      by_cases ht : t.name = n <;>
        simp [lastMatching, h, ht, lookupReg_objInsert, createTool]

/-- Helper: a name is a key of the folded registry exactly when some
descriptor carries it or the accumulator already had it. -/
theorem mem_regKeys_foldl (l : List MCPXTool) (acc : Registry) (n : String) :
    n ∈ regKeys (l.foldl (fun acc t => objInsert (createTool t).id (createTool t) acc) acc)
      ↔ (∃ t ∈ l, n = t.name) ∨ n ∈ regKeys acc := by
  induction l generalizing acc with
  | nil => simp
  | cons t ts ih =>
    rw [List.foldl_cons, ih, mem_regKeys_objInsert]
    simp only [List.mem_cons, createTool]
    constructor
    · rintro (⟨u, hu, hn⟩ | (h1 | h2))
      · exact Or.inl ⟨u, Or.inr hu, hn⟩
      · exact Or.inl ⟨t, Or.inl rfl, h1⟩
      · exact Or.inr h2
    · rintro (⟨u, hu | hu, hn⟩ | h2)
      · subst hu
        exact Or.inr (Or.inl hn)
      · exact Or.inl ⟨u, hu, hn⟩
      · exact Or.inr (Or.inr h2)

/-- Helper: the fold of object updates keeps the keys duplicate-free. -/
theorem nodup_regKeys_foldl (l : List MCPXTool) (acc : Registry)
    (h : (regKeys acc).Nodup) :
    (regKeys (l.foldl (fun acc t => objInsert (createTool t).id (createTool t) acc) acc)).Nodup := by
  induction l generalizing acc with
  | nil => simpa using h
  | cons t ts ih =>
    rw [List.foldl_cons]
    exact ih _ (nodup_regKeys_objInsert _ _ _ h)

/-- Helper: the catch clause of `execute` converts every exception of the try
block into an ordinary returned CallResult. -/
theorem execute_ok (toolName : String) (outcome : CallToolOutcome) :
    ∃ result : CallResult, execute toolName outcome = Except.ok result := by
  cases h : tryBlock outcome with
  | ok r => exact ⟨r, by simp [execute, h]⟩
  | error e => exact ⟨caughtCallResult toolName e, by simp [execute, h]⟩

/-- C1: for every constructed operation and every outcome of the remote call
(successful response, nullish response, rejection during the call or the
response handling), `execute` returns a CallResult (`Except.ok`); no
exception raised inside `execute` propagates to the caller. -/
theorem invoke_always_returns_CallResult (toolName : String)
    (outcome : CallToolOutcome) :
    ∃ result : CallResult, execute toolName outcome = Except.ok result :=
  execute_ok toolName outcome

/-- C2 (evaluation at the failing input): when the remote call resolves to
`undefined`, the `console.log` statement reads `response.isError` off the
nullish response before the `if (!response)` guard runs, so the try block
throws a TypeError and `execute` returns the catch-clause CallResult — not
the literal "No response received from tool" result of the (unreachable)
guard branch. -/
theorem null_response_hits_catch_not_noResponse :
    execute "gh_list_issues" (CallToolOutcome.resolved none)
      = Except.ok (caughtCallResult "gh_list_issues" typeErrorReadingIsError)
    ∧ decide (caughtCallResult "gh_list_issues" typeErrorReadingIsError
                = noResponseCallResult) = false := by
  exact ⟨rfl, by decide⟩

/-- C3: when the remote call rejects, `execute` returns (never throws) a
CallResult with `isError = true` and a single text item
"An error occurred while executing <toolName>: <error>." with `data` and
`mimeType` null; in particular a thrown `Timeout` for `gh_list_issues`
produces exactly the spec's scenario result. -/
theorem thrown_error_yields_error_CallResult (toolName err : String) :
    execute toolName (CallToolOutcome.thrown err)
      = Except.ok
          { content := [ { type := "text"
                         , text := "An error occurred while executing "
                                     ++ toolName ++ ": " ++ err ++ "."
                         , data := JSStr.null
                         , mimeType := JSStr.null } ]
          , isError := some true }
    ∧ execute "gh_list_issues" (CallToolOutcome.thrown "Timeout")
      = Except.ok
          { content := [ { type := "text"
                         , text := "An error occurred while executing gh_list_issues: Timeout."
                         , data := JSStr.null
                         , mimeType := JSStr.null } ]
          , isError := some true } := by
  refine ⟨rfl, ?_⟩
  simp [execute, tryBlock, caughtCallResult]

/-- C4: for a successful remote call with a non-null response, `execute`
returns the response's content mapped item by item through `projectItem`
(same length and order, the four fields copied verbatim), the empty sequence
when the response's `content` field is absent, and the response's `isError`
passed through unchanged. -/
theorem success_response_mapped_verbatim (toolName : String)
    (r : MCPXCallResult) :
    execute toolName (CallToolOutcome.resolved (some r))
      = Except.ok { content := (r.content.getD []).map projectItem
                  , isError := r.isError }
    ∧ ((r.content.getD []).map projectItem).length = (r.content.getD []).length
    ∧ (∀ item : RemoteContentItem,
         (projectItem item).type = item.type
         ∧ (projectItem item).text = item.text
         ∧ (projectItem item).data = optToJS item.data
         ∧ (projectItem item).mimeType = optToJS item.mimeType)
    ∧ (r.content = none →
        execute toolName (CallToolOutcome.resolved (some r))
          = Except.ok { content := ([] : List ContentItem), isError := r.isError }) := by
  refine ⟨rfl, List.length_map _ _, fun item => ⟨rfl, rfl, rfl, rfl⟩, fun h => ?_⟩
  simp [execute, tryBlock, readIsError, h]

/-- Witness for C4 at a concrete response whose `content` field is absent. -/
theorem success_response_mapped_verbatim_witness :
    execute "gh_list_issues"
        (CallToolOutcome.resolved (some { content := none, isError := some false }))
      = Except.ok { content := ([] : List ContentItem), isError := some false } :=
  (success_response_mapped_verbatim "gh_list_issues"
    { content := none, isError := some false }).2.2.2 rfl

/-- C5: with the schema translator modelled from the spec as a total
transform (the translator lives in the external package
`@dylibso/json-schema-to-zod-openai`, outside this repository), an
unrecognized schema feature degrades to the permissive `any` leaf rather than
rejecting the tool, and no tool's input schema can prevent the remaining
tools of the catalog from being registered: `getMcpxTools` returns a registry
in which every catalogued tool name is present. -/
theorem translator_degrades_and_registers_all (l : List MCPXTool) :
    getMcpxTools (Except.ok l) = Except.ok (buildRegistry l)
    ∧ (∀ t : MCPXTool, t ∈ l → (lookupReg (buildRegistry l) t.name).isSome = true)
    ∧ (∀ feature : String,
        convertToZodSchema (JsonSchema.unrecognized feature) = ZodType.any) := by
  refine ⟨rfl, fun t ht => ?_, fun feature => rfl⟩
  rw [lookupReg_isSome_iff, buildRegistry_eq_foldl, mem_regKeys_foldl]
  exact Or.inl ⟨t, ht, rfl⟩

/-- Witness for C5: a one-tool catalog whose input schema is entirely
unrecognized still gets its tool registered. -/
theorem translator_degrades_and_registers_all_witness :
    (lookupReg (buildRegistry
        [ { name := "weird_tool", description := none
          , inputSchema := JsonSchema.unrecognized "oneOf" } ]) "weird_tool").isSome
      = true :=
  (translator_degrades_and_registers_all _).2.1 _ (List.mem_singleton.mpr rfl)

/-- C6: the registry returned by `getMcpxTools` has exactly one operation per
distinct tool name (its keys are duplicate-free and are exactly the catalog's
names), each name mapped to the operation built from the *last* descriptor
carrying that name — on duplicates the later descriptor silently overwrites
the earlier. -/
theorem registry_one_op_per_name_last_wins (l : List MCPXTool) (n : String) :
    lookupReg (buildRegistry l) n = Option.map createTool (lastMatching n l)
    ∧ (regKeys (buildRegistry l)).Nodup
    ∧ (n ∈ regKeys (buildRegistry l) ↔ n ∈ l.map MCPXTool.name) := by
  refine ⟨?_, ?_, ?_⟩
  · rw [buildRegistry_eq_foldl, lookupReg_foldl]
    cases lastMatching n l <;> simp [lookupReg]
  · rw [buildRegistry_eq_foldl]
    exact nodup_regKeys_foldl _ _ (by simp [regKeys])
  · rw [buildRegistry_eq_foldl, mem_regKeys_foldl]
    simp only [regKeys, List.map_nil, List.not_mem_nil, or_false, List.mem_map]
    constructor
    · rintro ⟨t, ht, hn⟩
      exact ⟨t, ht, hn.symm⟩
    · rintro ⟨t, ht, hn⟩
      exact ⟨t, ht, hn.symm⟩

/-- C7: if the list-tools request rejects, `getMcpxTools` rethrows that very
error to its caller: the whole construction fails, so no registry built from
a partial catalog is returned (the result is `Except.error err`, not
`Except.ok` of any registry). -/
theorem listTools_failure_propagates (err : String) :
    getMcpxTools (Except.error err) = Except.error err := rfl

/-- C8: against a deterministic remote endpoint (the call-tool request
modelled as a pure function of tool name and arguments), invoking the same
operation twice with identical input yields structurally identical
CallResults: both invocations return the same `CallResult` value. -/
theorem invoke_deterministic {α : Type} (callTool : String → α → CallToolOutcome)
    (toolName : String) (context : α) :
    invoke callTool toolName context = invoke callTool toolName context
    ∧ ∃ result : CallResult,
        invoke callTool toolName context = Except.ok result
        ∧ invoke callTool toolName context = Except.ok result := by
  refine ⟨rfl, ?_⟩
  obtain ⟨r, hr⟩ := execute_ok toolName (callTool toolName context)
  exact ⟨r, hr, hr⟩

/-- C9: the constructed operation's description is always a string: the
descriptor's description whenever that is present and non-empty, and the
empty string when it is absent. -/
theorem description_defaulted (t : MCPXTool) :
    (t.description = none → (createTool t).description = "")
    ∧ (∀ d : String, t.description = some d → d ≠ "" →
        (createTool t).description = d) := by
  constructor
  · intro h
    simp [createTool, jsOrEmpty, h]
  · intro d hd hne
    simp [createTool, jsOrEmpty, hd, hne]

/-- Witness for C9 at a descriptor with a present, non-empty description and
at one with an absent description. -/
theorem description_defaulted_witness :
    (createTool { name := "gh_list_issues"
                , description := some "List issues"
                , inputSchema := JsonSchema.str }).description = "List issues"
    ∧ (createTool { name := "gh_create_issue"
                  , description := none
                  , inputSchema := JsonSchema.str }).description = "" :=
  ⟨(description_defaulted { name := "gh_list_issues"
                          , description := some "List issues"
                          , inputSchema := JsonSchema.str }).2
      "List issues" rfl (by decide),
   (description_defaulted { name := "gh_create_issue"
                          , description := none
                          , inputSchema := JsonSchema.str }).1 rfl⟩

/-- C10: the success-path projection keeps exactly the four declared fields
`type`, `text`, `data`, `mimeType`: it is invariant under any extra runtime
fields of the remote item, and an absent `data` or `mimeType` is passed
through as `undefined`, which is distinct from the `null` the error results
use. -/
theorem projection_keeps_four_fields (i1 i2 : RemoteContentItem) :
    (i1.type = i2.type → i1.text = i2.text → i1.data = i2.data →
       i1.mimeType = i2.mimeType → projectItem i1 = projectItem i2)
    ∧ (i1.data = none → (projectItem i1).data = JSStr.undef)
    ∧ (i1.mimeType = none → (projectItem i1).mimeType = JSStr.undef)
    ∧ decide (JSStr.undef = JSStr.null) = false := by
  refine ⟨fun h1 h2 h3 h4 => ?_, fun h => ?_, fun h => ?_, by decide⟩
  · simp [projectItem, h1, h2, h3, h4]
  · simp [projectItem, optToJS, h]
  · simp [projectItem, optToJS, h]

/-- Witness for C10: two remote items differing only in extra runtime fields
project to the same ContentItem, and an item with absent `data` and
`mimeType` projects to `undefined` in both fields. -/
theorem projection_keeps_four_fields_witness :
    projectItem { type := "text", data := none, mimeType := none
                , text := "hi", extra := [("audience", "user")] }
      = projectItem { type := "text", data := none, mimeType := none
                    , text := "hi", extra := [] }
    ∧ (projectItem { type := "text", data := none, mimeType := none
                   , text := "hi", extra := [("audience", "user")] }).data
        = JSStr.undef
    ∧ (projectItem { type := "text", data := none, mimeType := none
                   , text := "hi", extra := [("audience", "user")] }).mimeType
        = JSStr.undef :=
  ⟨(projection_keeps_four_fields _ _).1 rfl rfl rfl rfl,
   (projection_keeps_four_fields
      { type := "text", data := none, mimeType := none
      , text := "hi", extra := [("audience", "user")] }
      { type := "text", data := none, mimeType := none
      , text := "hi", extra := [] }).2.1 rfl,
   (projection_keeps_four_fields
      { type := "text", data := none, mimeType := none
      , text := "hi", extra := [("audience", "user")] }
      { type := "text", data := none, mimeType := none
      , text := "hi", extra := [] }).2.2.1 rfl⟩

end Mcpx
